import Mathlib

/-!
Shallow embedding of `src/Fch.ts` (the `Fch` class, a decorator around the
platform `fetch` primitive) and proofs about its retry loop, interceptor
pipeline, logging plumbing, and body-encoding helpers.

Modelling conventions:
* JavaScript numbers that the code treats as counters (`retries`,
  `retryTimeout`, `timeout`) are modelled as `Int` (the code compares and
  subtracts them; fractional values are out of scope).
* The mutable `this` of the class is modelled as an explicit state record
  `FchCore`; methods become functions `FchCore → FchCore` (or on the wrapper
  `Fch`, which adds the two interceptor lists).  Methods that in the source
  `return this` are modelled as returning the updated state.
* `FormData` objects are mutable and aliased in the source, so they live in
  an explicit heap (`Store`, a list of form-data contents) and the state
  holds references (indices) into it.
* The network and the clock are abstracted by an oracle
  `Nat → FchCore → FetchOutcome` giving, for each attempt index and the
  request state at that moment, what the platform `fetch` would do within
  the attempt's timeout window: respond, fail, or exceed the timeout.
* `AbortController` is modelled by its observable `signal.aborted` bit:
  a fetch started with an already-aborted signal rejects immediately with
  an abort error, and the timeout handler `() => this.controller.abort()`
  sets the bit permanently.
-/

/-- A log emission, as observed by the host: a console call made by the
default logger, or a call into a user-supplied logger (tagged). -/
inductive LogEvent where
  | consoleLog (msg : String)
  | consoleWarn (msg : String)
  | consoleError (msg : String)
  | ext (tag : String) (msg : String)
deriving DecidableEq

/-- The `Logger` interface of `Fch.ts`: three functions.  Each call returns
the list of host-visible emissions it performs. -/
structure Logger where
  info : String → List LogEvent
  warn : String → List LogEvent
  error : String → List LogEvent

/-- A possibly ill-typed logger candidate as it may arrive at the
constructor: each of the three members is a function or is not one
(`none` models a missing member or a non-function value). -/
structure RawLogger where
  info : Option (String → List LogEvent) := none
  warn : Option (String → List LogEvent) := none
  error : Option (String → List LogEvent) := none

/-- `createDefaultLogger` of `Fch.ts`: console methods with bound prefixes
`[INFO]`, `[WARN]`, `[ERROR]` (binding a prefix argument makes the console
receive the prefix and the message, rendered here as one string separated
by a space, as the repository's tests expect). -/
def createDefaultLogger : Logger where
  info := fun msg => [LogEvent.consoleLog ("[INFO] " ++ msg)]
  warn := fun msg => [LogEvent.consoleWarn ("[WARN] " ++ msg)]
  error := fun msg => [LogEvent.consoleError ("[ERROR] " ++ msg)]

/-- `adaptLogger` of `Fch.ts`: use the supplied logger when it exists and
its `info`, `warn` and `error` members are all functions, otherwise fall
back to the default console logger. -/
def adaptLogger : Option RawLogger → Logger
  | some l =>
    match l.info, l.warn, l.error with
    | some fi, some fw, some fe => ⟨fi, fw, fe⟩
    | _, _, _ => createDefaultLogger
  | none => createDefaultLogger

/-- The value of `this.fetchOptions.body`: `null`, a string, or a reference
to a `FormData` object in the heap. -/
inductive BodyVal where
  | null
  | str (s : String)
  | fdRef (r : Nat)
deriving DecidableEq

/-- A `FormData` content: the appended key/value pairs in order (values are
modelled as strings). -/
abbrev FormDataContent := List (String × String)

/-- The heap of `FormData` objects; `Nat` indices into it act as object
references, so aliasing between `this.formData` and
`this.fetchOptions.body` is represented faithfully. -/
abbrev Store := List FormDataContent

/-- An HTTP response (the fields the code observes). -/
structure Resp where
  status : Nat
  body : String
deriving DecidableEq

/-- An error a fetch attempt can reject with: the abort error raised when
the request's signal is aborted, or any other error carrying a message. -/
inductive Err where
  | abortError
  | mk (msg : String)
deriving DecidableEq

/-- The `message` property of an error. -/
def Err.message : Err → String
  | .abortError => "This operation was aborted"
  | .mk m => m

/-- What the platform would do for one fetch attempt, within the attempt's
timeout window: deliver a response, reject with an error, or still be
pending when the timeout fires. -/
inductive FetchOutcome where
  | success (r : Resp)
  | failure (e : Err)
  | timeout
deriving DecidableEq

/-- The data part of an `Fch` instance (everything except the two
interceptor arrays, which live on the wrapper `Fch` so that interceptor
functions can be given the state without a circular type). -/
structure FchCore where
  url : String
  formData : Option Nat
  headersMap : List (String × String)
  fetchOptionsMethod : String
  fetchOptionsBody : BodyVal
  aborted : Bool
  retries : Int
  retryTimeout : Int
  timeout : Int
  logger : Logger
  isLoggingEnabled : Bool

/-- An `Fch` instance: its data plus the two registered interceptor
pipelines. -/
structure Fch where
  core : FchCore
  requestInterceptors : List (FchCore → FchCore)
  responseInterceptors : List (Resp → Resp)

/-- Lower-case a header name, modelling the case-insensitivity of the
platform `Headers` object. -/
def headerKey (name : String) : String := name.toLower

/-- `Headers.set`: replace the value under the (case-insensitive) name, or
add the pair. -/
def headersSet (h : List (String × String)) (name value : String) : List (String × String) :=
  let key := headerKey name
  if h.any (fun p => p.1 == key) then
    h.map (fun p => if p.1 == key then (key, value) else p)
  else h ++ [(key, value)]

/-- `Headers.get`: the value under the (case-insensitive) name, if any. -/
def headersGet (h : List (String × String)) (name : String) : Option String :=
  (h.find? (fun p => p.1 == headerKey name)).map (fun p => p.2)

/-- The subset of `FetchRequestOptions` that the constructor destructures
and that the claims exercise.  `abortController` is represented by the
supplied controller's `signal.aborted` bit. -/
structure FetchRequestOptions where
  retries : Option Int := none
  retryTimeout : Option Int := none
  timeout : Option Int := none
  abortController : Option Bool := none
  logger : Option RawLogger := none
  debug : Option Bool := none
  method : Option String := none
  headers : List (String × String) := []

/-- The `Fch` constructor: defaults `retries = 1`, `timeout = 5000`,
`retryTimeout = 0`, `debug = false`; `fetchOptions.method` falls back to
`"GET"`; `fetchOptions.body` is set to `this.formData`, which is `null` at
that point; the logger is adapted; `isLoggingEnabled` is set to `debug`. -/
def Fch.construct (url : String) (o : FetchRequestOptions) : Fch where
  core :=
    { url := url
      formData := none
      headersMap := o.headers.foldl (fun h p => headersSet h p.1 p.2) []
      fetchOptionsMethod :=
        match o.method with
        | some m => if m = "" then "GET" else m
        | none => "GET"
      fetchOptionsBody := BodyVal.null
      aborted := o.abortController.getD false
      retries := o.retries.getD 1
      retryTimeout := o.retryTimeout.getD 0
      timeout := o.timeout.getD 5000
      logger := adaptLogger o.logger
      isLoggingEnabled := o.debug.getD false }
  requestInterceptors := []
  responseInterceptors := []

/-- The `method` getter: `this.fetchOptions.method || "GET"`. -/
def FchCore.method (c : FchCore) : String :=
  if c.fetchOptionsMethod = "" then "GET" else c.fetchOptionsMethod

/-- `getHeader` of `Fch.ts`. -/
def FchCore.getHeader (c : FchCore) (name : String) : Option String :=
  headersGet c.headersMap name

/-- `enableLogging` of `Fch.ts`. -/
def FchCore.enableLogging (c : FchCore) : FchCore :=
  { c with isLoggingEnabled := true }

/-- `disableLogging` of `Fch.ts`. -/
def FchCore.disableLogging (c : FchCore) : FchCore :=
  { c with isLoggingEnabled := false }

/-- `setLogger` of `Fch.ts`: assigns the logger directly (no adaptation). -/
def FchCore.setLogger (c : FchCore) (l : Logger) : FchCore :=
  { c with logger := l }

/-- `setLogger` on the instance, returning it. -/
def Fch.setLogger (f : Fch) (l : Logger) : Fch :=
  { f with core := f.core.setLogger l }

/-- `getLogger` of `Fch.ts`: a wrapper logger that forwards each call to
`this.logger` only when `isLoggingEnabled` holds, and otherwise does
nothing. -/
def FchCore.getLogger (c : FchCore) : Logger where
  info := fun msg => if c.isLoggingEnabled then c.logger.info msg else []
  warn := fun msg => if c.isLoggingEnabled then c.logger.warn msg else []
  error := fun msg => if c.isLoggingEnabled then c.logger.error msg else []

/-- `addRequestInterceptor` of `Fch.ts`: pushes onto the array and returns
the instance. -/
def Fch.addRequestInterceptor (f : Fch) (g : FchCore → FchCore) : Fch :=
  { f with requestInterceptors := f.requestInterceptors ++ [g] }

/-- `addResponseInterceptor` of `Fch.ts`: pushes onto the array and returns
the instance. -/
def Fch.addResponseInterceptor (f : Fch) (g : Resp → Resp) : Fch :=
  { f with responseInterceptors := f.responseInterceptors ++ [g] }

/-- A JSON-serializable JavaScript value (numbers modelled as integers). -/
inductive JsValue where
  | null
  | bool (b : Bool)
  | num (n : Int)
  | str (s : String)
  | arr (elems : List JsValue)
  | obj (fields : List (String × JsValue))

/-- One hexadecimal digit character (upper case letters). -/
def hexDigitChar (n : Nat) : Char :=
  Char.ofNat (if n < 10 then 48 + n else 55 + n)

/-- Escape one character for a JSON string literal. -/
def jsonEscapeChar (ch : Char) : String :=
  if ch = '"' then "\\\""
  else if ch = '\\' then "\\\\"
  else if ch = '\n' then "\\n"
  else if ch = '\r' then "\\r"
  else if ch = '\t' then "\\t"
  else if ch = Char.ofNat 8 then "\\b"
  else if ch = Char.ofNat 12 then "\\f"
  else if ch.toNat < 32 then
    "\\u00" ++ String.mk [hexDigitChar (ch.toNat / 16), hexDigitChar (ch.toNat % 16)]
  else String.singleton ch

/-- Escape a string for a JSON string literal. -/
def jsonEscape (s : String) : String :=
  String.join (s.data.map jsonEscapeChar)

mutual
/-- `JSON.stringify` on `JsValue`. -/
def jsonStringify : JsValue → String
  | .null => "null"
  | .bool true => "true"
  | .bool false => "false"
  | .num n => toString n
  | .str s => "\"" ++ jsonEscape s ++ "\""
  | .arr es => "[" ++ String.intercalate "," (jsonStringifyList es) ++ "]"
  | .obj fs => "\x7b" ++ String.intercalate "," (jsonStringifyFields fs) ++ "\x7d"

/-- `JSON.stringify` mapped over array elements. -/
def jsonStringifyList : List JsValue → List String
  | [] => []
  | v :: vs => jsonStringify v :: jsonStringifyList vs

/-- `JSON.stringify` mapped over object fields. -/
def jsonStringifyFields : List (String × JsValue) → List String
  | [] => []
  | (k, v) :: fs => ("\"" ++ jsonEscape k ++ "\":" ++ jsonStringify v) :: jsonStringifyFields fs
end

/-- `setBody` of `Fch.ts`: clears `formData`, stores the body in
`fetchOptions.body`, and sets the `Content-Type` header when the given
content type is truthy (present and non-empty). -/
def FchCore.setBody (c : FchCore) (body : BodyVal) (contentType : Option String) : FchCore :=
  let c1 := { c with formData := none, fetchOptionsBody := body }
  match contentType with
  | some ct =>
    if ct = "" then c1
    else { c1 with headersMap := headersSet c1.headersMap "Content-Type" ct }
  | none => c1

/-- `setBody` on the instance. -/
def Fch.setBody (f : Fch) (body : BodyVal) (contentType : Option String) : Fch :=
  { f with core := f.core.setBody body contentType }

/-- `setJsonBody` of `Fch.ts`: `setBody(JSON.stringify(json), "application/json")`. -/
def FchCore.setJsonBody (c : FchCore) (v : JsValue) : FchCore :=
  c.setBody (BodyVal.str (jsonStringify v)) (some "application/json")

/-- `setJsonBody` on the instance. -/
def Fch.setJsonBody (f : Fch) (v : JsValue) : Fch :=
  { f with core := f.core.setJsonBody v }

/-- A primitive value accepted by `setFormUrlEncodedBody`: a string, a
number (modelled as an integer) or a boolean. -/
inductive FormPrim where
  | str (s : String)
  | num (n : Int)
  | bool (b : Bool)

/-- A record value accepted by `setFormUrlEncodedBody`: a primitive or an
array of primitives. -/
inductive FormValue where
  | prim (p : FormPrim)
  | arr (vs : List FormPrim)

/-- JavaScript `String(v)` on a form primitive. -/
def jsString : FormPrim → String
  | .str s => s
  | .num n => toString n
  | .bool true => "true"
  | .bool false => "false"

/-- UTF-8 bytes of a character (as `Nat`s below 256). -/
def utf8Bytes (c : Char) : List Nat :=
  let n := c.toNat
  if n < 128 then [n]
  else if n < 2048 then [192 + n / 64, 128 + n % 64]
  else if n < 65536 then [224 + n / 4096, 128 + (n / 64) % 64, 128 + n % 64]
  else [240 + n / 262144, 128 + (n / 4096) % 64, 128 + (n / 64) % 64, 128 + n % 64]

/-- Percent-encode one byte per `application/x-www-form-urlencoded`:
alphanumerics and `*-._` stand for themselves, a space becomes `+`, and
every other byte becomes `%XX`. -/
def encodeByte (b : Nat) : String :=
  if (48 ≤ b ∧ b ≤ 57) ∨ (65 ≤ b ∧ b ≤ 90) ∨ (97 ≤ b ∧ b ≤ 122)
      ∨ b = 42 ∨ b = 45 ∨ b = 46 ∨ b = 95 then
    String.singleton (Char.ofNat b)
  else if b = 32 then "+"
  else String.mk ['%', hexDigitChar (b / 16), hexDigitChar (b % 16)]

/-- Percent-encode a string per `application/x-www-form-urlencoded`. -/
def formUrlEncode (s : String) : String :=
  String.join (((s.data.map utf8Bytes).flatten).map encodeByte)

/-- The platform `URLSearchParams` object: its list of appended pairs. -/
structure URLSearchParams where
  pairs : List (String × String)

/-- `URLSearchParams.append`. -/
def URLSearchParams.append (u : URLSearchParams) (key value : String) : URLSearchParams :=
  ⟨u.pairs ++ [(key, value)]⟩

/-- `URLSearchParams.toString`: percent-encoded `key=value` pairs joined
with `&`. -/
def URLSearchParams.toStr (u : URLSearchParams) : String :=
  String.intercalate "&" (u.pairs.map (fun p => formUrlEncode p.1 ++ "=" ++ formUrlEncode p.2))

/-- The `URLSearchParams` built by the loop of `setFormUrlEncodedBody`:
for each record entry, append each array element (stringified) as a
separate value under the key, or append the stringified primitive. -/
def buildParams (data : List (String × FormValue)) : URLSearchParams :=
  data.foldl
    (fun u kv =>
      match kv.2 with
      | FormValue.arr vs => vs.foldl (fun u2 v => u2.append kv.1 (jsString v)) u
      | FormValue.prim p => u.append kv.1 (jsString p))
    ⟨[]⟩

/-- `setFormUrlEncodedBody` of `Fch.ts`. -/
def FchCore.setFormUrlEncodedBody (c : FchCore) (data : List (String × FormValue)) : FchCore :=
  let urlSearchParams := buildParams data
  c.setBody (BodyVal.str urlSearchParams.toStr) (some "application/x-www-form-urlencoded")

/-- `setFormUrlEncodedBody` on the instance. -/
def Fch.setFormUrlEncodedBody (f : Fch) (data : List (String × FormValue)) : Fch :=
  { f with core := f.core.setFormUrlEncodedBody data }

/-- Append a pair to the `FormData` object at reference `r` in the heap. -/
def storeAppend (st : Store) (r : Nat) (kv : String × String) : Store :=
  match st.get? r with
  | some fd => st.set r (fd ++ [kv])
  | none => st

/-- `appendToFormData` of `Fch.ts`: allocate `this.formData` if it is
`null` (note: this does not touch `fetchOptions.body`), append the pair to
it, and force the method to `POST` unless it is `PUT`. -/
def FchCore.appendToFormData (st : Store) (c : FchCore) (key value : String) : Store × FchCore :=
  let sc1 :=
    match c.formData with
    | none => (st ++ [[]], { c with formData := some st.length })
    | some _ => (st, c)
  match sc1.2.formData with
  | some r =>
    let st2 := storeAppend sc1.1 r (key, value)
    let c2 :=
      if sc1.2.fetchOptionsMethod ≠ "PUT" then { sc1.2 with fetchOptionsMethod := "POST" }
      else sc1.2
    (st2, c2)
  | none => sc1

/-- `setFormData` of `Fch.ts`: store the reference in `this.formData`,
force the method to `POST` unless it is `PUT`, and set
`fetchOptions.body` to the same `FormData` object. -/
def FchCore.setFormData (c : FchCore) (r : Nat) : FchCore :=
  let c1 := { c with formData := some r }
  let c2 :=
    if c1.fetchOptionsMethod ≠ "PUT" then { c1 with fetchOptionsMethod := "POST" }
    else c1
  { c2 with fetchOptionsBody := BodyVal.fdRef r }

/-- What a fetch actually transmits as the request body, obtained by
dereferencing `fetchOptions.body` in the heap. -/
inductive SentBody where
  | none
  | str (s : String)
  | form (fd : FormDataContent)
deriving DecidableEq

/-- Dereference `fetchOptions.body`. -/
def resolveBody (st : Store) : BodyVal → SentBody
  | .null => .none
  | .str s => .str s
  | .fdRef r =>
    match st.get? r with
    | some fd => .form fd
    | Option.none => .none

/-- `this.requestInterceptors.forEach((interceptor) => interceptor(this))`:
each registered interceptor mutates the state in registration order. -/
def applyReqInterceptors (c : FchCore) (ints : List (FchCore → FchCore)) : FchCore :=
  ints.foldl (fun st g => g st) c

/-- `this.responseInterceptors.reduce(async (prev, i) => i(await prev), response)`:
each registered interceptor transforms the response of the previous one, in
registration order; the result of the last one is returned. -/
def applyRespInterceptors (r : Resp) (ints : List (Resp → Resp)) : Resp :=
  ints.foldl (fun resp g => g resp) r

/-- One run of the inner `fetchWithTimeout` closure of `makeRequest`.
A timer is armed that aborts `this.controller` after `this.timeout`
milliseconds.  If the controller's signal is already aborted the fetch
rejects at once with an abort error.  Otherwise the oracle's outcome for
this attempt decides: a response is piped through the response
interceptors; a failure is rethrown; exceeding the timeout fires the timer,
which aborts the shared controller (permanently: nothing ever resets it)
and makes the fetch reject with an abort error. -/
def fetchWithTimeout (c : FchCore) (ints : List (Resp → Resp)) (outcome : FetchOutcome) :
    Except Err Resp × FchCore :=
  if c.aborted then (Except.error Err.abortError, c)
  else
    match outcome with
    | .success r => (Except.ok (applyRespInterceptors r ints), c)
    | .failure e => (Except.error e, c)
    | .timeout => (Except.error Err.abortError, { c with aborted := true })

/-- The observable result of a `makeRequest` run: the settled promise
(`Except.ok none` models resolving with `undefined`), the number of fetch
attempts performed, the final instance state, and the log emissions. -/
structure RunResult where
  result : Except Err (Option Resp)
  attempts : Nat
  core : FchCore
  logs : List LogEvent

/-- The `for (let attempt = 0; attempt < retries; attempt++)` loop of
`makeRequest`.  `fuel` is the number of remaining iterations,
`(retries - attempt).toNat`, making the loop guard `attempt < retries`
explicit; the `attempt === retries - 1` test is kept verbatim.  On a
response the loop logs and returns it; on an error it logs, rethrows on
the last attempt, and otherwise continues with the next attempt. -/
def loopGo (ints : List (Resp → Resp)) (oracle : Nat → FchCore → FetchOutcome) (retries : Int) :
    FchCore → Nat → Nat → RunResult
  | c, attempt, 0 => ⟨Except.ok none, attempt, c, []⟩
  | c, attempt, fuel + 1 =>
    match fetchWithTimeout c ints (oracle attempt c) with
    | (Except.ok r, c') =>
      ⟨Except.ok (some r), attempt + 1, c',
        c.logger.info ("Received response with status " ++ toString r.status)⟩
    | (Except.error e, c') =>
      if (attempt : Int) = retries - 1 then
        ⟨Except.error e, attempt + 1, c',
          c.logger.error ("Request failed: " ++ e.message)⟩
      else
        let rest := loopGo ints oracle retries c' (attempt + 1) fuel
        ⟨rest.result, rest.attempts, rest.core,
          c.logger.error ("Request failed: " ++ e.message) ++ rest.logs⟩

/-- The attempt loop of `makeRequest`, entered at attempt `0` with
`retries.toNat` available iterations (none when `retries <= 0`). -/
def makeRequestLoop (ints : List (Resp → Resp)) (oracle : Nat → FchCore → FetchOutcome)
    (retries : Int) (c : FchCore) : RunResult :=
  loopGo ints oracle retries c 0 retries.toNat

/-- `makeRequest(retries, retryTimeout)` of `Fch.ts`: log the request,
run every request interceptor on the instance, then run the attempt loop.
`retryTimeout` only inserts waits between attempts and has no observable
effect in this time-abstracted model. -/
def Fch.makeRequest (f : Fch) (oracle : Nat → FchCore → FetchOutcome)
    (retries : Int) (_retryTimeout : Int) : RunResult :=
  let startLog := f.core.logger.info
    ("Making request to " ++ f.core.url ++ " with method " ++ f.core.method)
  let c := applyReqInterceptors f.core f.requestInterceptors
  let r := makeRequestLoop f.responseInterceptors oracle retries c
  ⟨r.result, r.attempts, r.core, startLog ++ r.logs⟩

/-- `makeRequest()` with both arguments defaulted:
`retries = this.retries || 1` (so a falsy `0` becomes `1`) and
`retryTimeout = this.retryTimeout`. -/
def Fch.makeRequestDefault (f : Fch) (oracle : Nat → FchCore → FetchOutcome) : RunResult :=
  f.makeRequest oracle (if f.core.retries = 0 then 1 else f.core.retries) f.core.retryTimeout

/-- The instance state seen by attempt `i` of the loop when it starts from
state `c` at attempt `0` (only the abort bit can change between attempts). -/
def coreAt (ints : List (Resp → Resp)) (oracle : Nat → FchCore → FetchOutcome)
    (c : FchCore) : Nat → FchCore
  | 0 => c
  | i + 1 =>
    (fetchWithTimeout (coreAt ints oracle c i) ints (oracle i (coreAt ints oracle c i))).2

/-- The outcome of attempt `i` of the loop (the settled value of
`fetchWithTimeout` on that attempt) when the loop starts from state `c`. -/
def attemptRes (ints : List (Resp → Resp)) (oracle : Nat → FchCore → FetchOutcome)
    (c : FchCore) (i : Nat) : Except Err Resp :=
  (fetchWithTimeout (coreAt ints oracle c i) ints (oracle i (coreAt ints oracle c i))).1

/-- The fetch performed by attempt `i` settles to that attempt's outcome
and hands the (possibly newly aborted) state to attempt `i + 1`. -/
theorem fetch_step_eq (ints : List (Resp → Resp)) (oracle : Nat → FchCore → FetchOutcome)
    (c : FchCore) (i : Nat) :
    fetchWithTimeout (coreAt ints oracle c i) ints (oracle i (coreAt ints oracle c i)) =
      (attemptRes ints oracle c i, coreAt ints oracle c (i + 1)) := rfl

/-- The loop performs at most `fuel` further attempts. -/
theorem loopGo_attempts_le (ints : List (Resp → Resp)) (oracle : Nat → FchCore → FetchOutcome)
    (retries : Int) :
    ∀ (fuel : Nat) (c : FchCore) (attempt : Nat),
      (loopGo ints oracle retries c attempt fuel).attempts ≤ attempt + fuel := by
  intro fuel
  induction fuel with
  | zero => intro c attempt; simp [loopGo]
  | succ fuel ih =>
    intro c attempt
    rw [loopGo]
    cases hstep : fetchWithTimeout c ints (oracle attempt c) with
    | mk res c' =>
      cases res with
      | ok r => simp
      | error e =>
        simp only
        split
        · simp
        · have := ih c' (attempt + 1)
          simp only at this ⊢
          omega

/-- The loop never rolls the attempt counter back. -/
theorem loopGo_attempts_ge (ints : List (Resp → Resp)) (oracle : Nat → FchCore → FetchOutcome)
    (retries : Int) :
    ∀ (fuel : Nat) (c : FchCore) (attempt : Nat),
      attempt ≤ (loopGo ints oracle retries c attempt fuel).attempts := by
  intro fuel
  induction fuel with
  | zero => intro c attempt; simp [loopGo]
  | succ fuel ih =>
    intro c attempt
    rw [loopGo]
    cases hstep : fetchWithTimeout c ints (oracle attempt c) with
    | mk res c' =>
      cases res with
      | ok r => simp
      | error e =>
        simp only
        split
        · simp
        · have := ih c' (attempt + 1)
          simp only at this ⊢
          omega

/-- With at least one iteration available, the loop performs at least one
attempt. -/
theorem loopGo_attempts_ge_one (ints : List (Resp → Resp)) (oracle : Nat → FchCore → FetchOutcome)
    (retries : Int) (fuel : Nat) (c : FchCore) (attempt : Nat) (hfuel : 1 ≤ fuel) :
    attempt + 1 ≤ (loopGo ints oracle retries c attempt fuel).attempts := by
  rcases fuel with _ | fuel
  · omega
  rw [loopGo]
  cases hstep : fetchWithTimeout c ints (oracle attempt c) with
  | mk res c' =>
    cases res with
    | ok r => simp
    | error e =>
      simp only
      split
      · simp
      · have := loopGo_attempts_ge ints oracle retries fuel c' (attempt + 1)
        simp only at this ⊢
        omega

theorem loopGo_first_success (ints : List (Resp → Resp)) (oracle : Nat → FchCore → FetchOutcome)
    (retries : Int) (c0 : FchCore) :
    ∀ (fuel attempt i : Nat) (r : Resp),
      fuel = (retries - (attempt : Int)).toNat →
      attempt ≤ i → ((i : Int) < retries) →
      (∀ j, attempt ≤ j → j < i → ∃ e, attemptRes ints oracle c0 j = Except.error e) →
      attemptRes ints oracle c0 i = Except.ok r →
      (loopGo ints oracle retries (coreAt ints oracle c0 attempt) attempt fuel).result
          = Except.ok (some r) ∧
      (loopGo ints oracle retries (coreAt ints oracle c0 attempt) attempt fuel).attempts = i + 1 := by
  intro fuel
  induction fuel with
  | zero =>
    intro attempt i r hfuel hai hir hfail hok
    exfalso; omega
  | succ fuel ih =>
    intro attempt i r hfuel hai hir hfail hok
    rw [loopGo, fetch_step_eq]
    rcases Nat.eq_or_lt_of_le hai with heq | hlt
    · subst heq
      rw [hok]
      simp
    · obtain ⟨e, he⟩ := hfail attempt le_rfl hlt
      rw [he]
      simp only
      have hne : ¬ ((attempt : Int) = retries - 1) := by omega
      rw [if_neg hne]
      have := ih (attempt + 1) i r (by omega) (by omega) hir
        (fun j hj1 hj2 => hfail j (by omega) hj2) hok
      simp only
      exact this

theorem loopGo_all_fail (ints : List (Resp → Resp)) (oracle : Nat → FchCore → FetchOutcome)
    (retries : Int) (c0 : FchCore) :
    ∀ (fuel attempt : Nat),
      fuel = (retries - (attempt : Int)).toNat →
      ((attempt : Int) < retries) →
      (∀ j, attempt ≤ j → ((j : Int) < retries) →
        ∃ e, attemptRes ints oracle c0 j = Except.error e) →
      ∃ e, attemptRes ints oracle c0 (retries.toNat - 1) = Except.error e ∧
        (loopGo ints oracle retries (coreAt ints oracle c0 attempt) attempt fuel).result
            = Except.error e ∧
        (loopGo ints oracle retries (coreAt ints oracle c0 attempt) attempt fuel).attempts
            = retries.toNat := by
  intro fuel
  induction fuel with
  | zero =>
    intro attempt hfuel har hfail
    exfalso; omega
  | succ fuel ih =>
    intro attempt hfuel har hfail
    obtain ⟨e, he⟩ := hfail attempt le_rfl har
    rw [loopGo, fetch_step_eq, he]
    simp only
    by_cases hlast : (attempt : Int) = retries - 1
    · rw [if_pos hlast]
      refine ⟨e, ?_, ?_, ?_⟩
      · have hr : retries.toNat - 1 = attempt := by omega
        rw [hr]; exact he
      · simp
      · simp; omega
    · rw [if_neg hlast]
      obtain ⟨e', h1, h2, h3⟩ := ih (attempt + 1) (by omega)
        (by omega) (fun j hj1 hj2 => hfail j (by omega) hj2)
      refine ⟨e', h1, ?_, ?_⟩
      · simp only; exact h2
      · simp only; exact h3

theorem loopGo_error_all (ints : List (Resp → Resp)) (oracle : Nat → FchCore → FetchOutcome)
    (retries : Int) (c0 : FchCore) :
    ∀ (fuel attempt : Nat) (e : Err),
      fuel = (retries - (attempt : Int)).toNat →
      (loopGo ints oracle retries (coreAt ints oracle c0 attempt) attempt fuel).result
          = Except.error e →
      ∀ j, attempt ≤ j → ((j : Int) < retries) →
        ∃ e', attemptRes ints oracle c0 j = Except.error e' := by
  intro fuel
  induction fuel with
  | zero =>
    intro attempt e hfuel hres
    rw [loopGo] at hres
    simp at hres
  | succ fuel ih =>
    intro attempt e hfuel hres j haj hjr
    rw [loopGo, fetch_step_eq] at hres
    cases hr : attemptRes ints oracle c0 attempt with
    | ok r =>
      rw [hr] at hres
      simp at hres
    | error e0 =>
      rw [hr] at hres
      simp only at hres
      rcases Nat.eq_or_lt_of_le haj with heq | hlt
      · exact ⟨e0, heq ▸ hr⟩
      · by_cases hlast : (attempt : Int) = retries - 1
        · exfalso; omega
        · rw [if_neg hlast] at hres
          simp only at hres
          exact ih (attempt + 1) e (by omega) hres j (by omega) hjr

/-- The claim-side description of `setFormUrlEncodedBody`'s record
flattening, following the specification's words: each array element is
appended as a separate value under the same key, and non-string values are
converted with JavaScript `String`. -/
def specFlattenedPairs : List (String × FormValue) → List (String × String)
  | [] => []
  | (k, FormValue.prim p) :: rest => (k, jsString p) :: specFlattenedPairs rest
  | (k, FormValue.arr vs) :: rest =>
      vs.map (fun v => (k, jsString v)) ++ specFlattenedPairs rest

/-- Appending every element of an array under one key adds exactly those
pairs, in order. -/
theorem foldl_append_pairs (key : String) :
    ∀ (vs : List FormPrim) (u : URLSearchParams),
      (vs.foldl (fun u2 v => u2.append key (jsString v)) u).pairs
        = u.pairs ++ vs.map (fun v => (key, jsString v)) := by
  intro vs
  induction vs with
  | nil => intro u; simp
  | cons v vs ih =>
    intro u
    rw [List.foldl_cons, ih]
    simp [URLSearchParams.append]

/-- The pairs accumulated by the loop of `setFormUrlEncodedBody` are the
flattened record, after any prefix already in the accumulator. -/
theorem buildParams_loop_pairs :
    ∀ (data : List (String × FormValue)) (u : URLSearchParams),
      ((data.foldl
          (fun u kv =>
            match kv.2 with
            | FormValue.arr vs => vs.foldl (fun u2 v => u2.append kv.1 (jsString v)) u
            | FormValue.prim p => u.append kv.1 (jsString p))
          u).pairs)
        = u.pairs ++ specFlattenedPairs data := by
  intro data
  induction data with
  | nil => intro u; simp [specFlattenedPairs]
  | cons kv rest ih =>
    intro u
    rcases kv with ⟨k, fv⟩
    cases fv with
    | prim p =>
      rw [List.foldl_cons, ih]
      simp [URLSearchParams.append, specFlattenedPairs]
    | arr vs =>
      rw [List.foldl_cons, ih]
      simp only
      rw [foldl_append_pairs]
      simp [specFlattenedPairs]

/-- The pairs of the `URLSearchParams` built by `setFormUrlEncodedBody`. -/
theorem buildParams_pairs (data : List (String × FormValue)) :
    (buildParams data).pairs = specFlattenedPairs data := by
  have h := buildParams_loop_pairs data ⟨[]⟩
  simpa [buildParams] using h

/-- After `Headers.set`, `Headers.get` with the same (case-insensitively
equal) name yields the value just set. -/
theorem headersGet_headersSet_self (h : List (String × String)) (name value : String) :
    headersGet (headersSet h name value) name = some value := by
  unfold headersGet headersSet
  by_cases hany : h.any (fun p => p.1 == headerKey name)
  · rw [if_pos hany]
    induction h with
    | nil => simp at hany
    | cons p t ih =>
      by_cases hp : (p.1 == headerKey name) = true
      · simp only [List.map_cons, if_pos hp]
        rw [List.find?_cons_of_pos]
        · simp
        · simp
      · simp only [List.any_cons, hp, Bool.false_or] at hany
        simp only [List.map_cons, if_neg hp]
        rw [List.find?_cons_of_neg]
        · exact ih hany
        · simpa using hp
  · rw [if_neg hany]
    induction h with
    | nil => simp [List.find?]
    | cons p t ih =>
      simp only [List.any_cons, Bool.or_eq_true, not_or] at hany
      simp only [List.cons_append]
      rw [List.find?_cons_of_neg]
      · exact ih hany.2
      · simpa using hany.1

/-- A plain instance used in concrete runs: default options. -/
def baseFch : Fch := Fch.construct "https://api.example.com/" {}

/-- C1: for every `retries >= 1`, `makeRequest(retries, retryTimeout)`
performs at most `retries` sequential fetch attempts; it returns the
response of the first attempt whose fetch does not throw (all earlier ones
having thrown); it rejects exactly when all `retries` attempts throw, and
then with the last attempt's error.  Stated for instances with no
registered interceptors, so that "the response" is the raw fetch response;
`attemptRes` gives each attempt's settled outcome. -/
theorem makeRequest_retry_contract (f : Fch) (oracle : Nat → FchCore → FetchOutcome)
    (retries rt : Int) (h1 : 1 ≤ retries)
    (hreq : f.requestInterceptors = []) (hresp : f.responseInterceptors = []) :
    ((f.makeRequest oracle retries rt).attempts : Int) ≤ retries ∧
    (∀ (i : Nat) (r : Resp), ((i : Int) < retries) → attemptRes [] oracle f.core i = Except.ok r →
      (∀ (j : Nat), j < i → ∃ e, attemptRes [] oracle f.core j = Except.error e) →
      (f.makeRequest oracle retries rt).result = Except.ok (some r) ∧
      (f.makeRequest oracle retries rt).attempts = i + 1) ∧
    ((∀ (j : Nat), ((j : Int) < retries) → ∃ e, attemptRes [] oracle f.core j = Except.error e) →
      ∃ e, attemptRes [] oracle f.core (retries.toNat - 1) = Except.error e ∧
        (f.makeRequest oracle retries rt).result = Except.error e ∧
        (f.makeRequest oracle retries rt).attempts = retries.toNat) ∧
    (∀ e, (f.makeRequest oracle retries rt).result = Except.error e →
      ∀ (j : Nat), ((j : Int) < retries) → ∃ e', attemptRes [] oracle f.core j = Except.error e') := by
  have hres : (f.makeRequest oracle retries rt).result
      = (loopGo [] oracle retries f.core 0 retries.toNat).result := by
    simp [Fch.makeRequest, makeRequestLoop, hreq, hresp, applyReqInterceptors]
  have hatt : (f.makeRequest oracle retries rt).attempts
      = (loopGo [] oracle retries f.core 0 retries.toNat).attempts := by
    simp [Fch.makeRequest, makeRequestLoop, hreq, hresp, applyReqInterceptors]
  have hinv : retries.toNat = (retries - ((0 : Nat) : Int)).toNat := by omega
  refine ⟨?_, ?_, ?_, ?_⟩
  · have hle := loopGo_attempts_le [] oracle retries retries.toNat f.core 0
    rw [hatt]
    omega
  · intro i r hir hok hfail
    have h2 := loopGo_first_success [] oracle retries f.core retries.toNat 0 i r
      hinv (Nat.zero_le i) hir (fun j _ hj2 => hfail j hj2) hok
    rw [hres, hatt]
    exact h2
  · intro hfail
    have h3 := loopGo_all_fail [] oracle retries f.core retries.toNat 0
      hinv (by omega) (fun j _ hj2 => hfail j hj2)
    obtain ⟨e, he1, he2, he3⟩ := h3
    rw [hres, hatt]
    exact ⟨e, he1, he2, he3⟩
  · intro e he j hjr
    have h4 := loopGo_error_all [] oracle retries f.core retries.toNat 0 e
      hinv (by rw [hres] at he; exact he)
    exact h4 j (Nat.zero_le j) hjr

/-- The oracle of the C1 witness run: the first attempt's fetch rejects,
the second responds with status 200. -/
def c1Oracle : Nat → FchCore → FetchOutcome :=
  fun i _ => if i = 0 then FetchOutcome.failure (Err.mk "network down")
             else FetchOutcome.success ⟨200, "ok"⟩

/-- C1 witness: a concrete two-attempt run in which the first attempt
throws and the second succeeds returns the second attempt's response after
exactly two attempts. -/
theorem makeRequest_retry_contract_witness :
    ((1 : Int) ≤ 2 ∧ baseFch.requestInterceptors = [] ∧ baseFch.responseInterceptors = []
      ∧ (((1 : Nat) : Int) < 2) ∧ attemptRes [] c1Oracle baseFch.core 1 = Except.ok ⟨200, "ok"⟩) ∧
    ((baseFch.makeRequest c1Oracle 2 0).result = Except.ok (some ⟨200, "ok"⟩) ∧
      (baseFch.makeRequest c1Oracle 2 0).attempts = 1 + 1) :=
  ⟨⟨by omega, rfl, rfl, by omega, rfl⟩,
    (makeRequest_retry_contract baseFch c1Oracle 2 0 (by omega) rfl rfl).2.1 1 ⟨200, "ok"⟩
      (by omega) rfl
      (fun j hj => by
        have hj0 : j = 0 := Nat.lt_one_iff.mp hj
        subst hj0
        exact ⟨Err.mk "network down", rfl⟩)⟩

/-- The oracle of the C2 run: the first attempt exceeds its timeout, and
the platform would deliver a 200 response for every later attempt. -/
def c2Oracle : Nat → FchCore → FetchOutcome :=
  fun i _ => if i = 0 then FetchOutcome.timeout else FetchOutcome.success ⟨200, "ok"⟩

/-- C2: a concrete two-attempt run refuting per-attempt timeout recovery.
Attempt 0 exceeds the timeout, so its timer calls `this.controller.abort()`
on the shared controller, which nothing ever resets; attempt 1 then runs
its fetch against the same already-aborted signal and rejects immediately
with an abort error even though the platform would have delivered a 200
response (last conjunct: the very same attempt outcome against a fresh,
unaborted state succeeds).  The whole request therefore rejects with the
abort error instead of returning the retry's response. -/
theorem makeRequest_timeout_poisons_retries :
    (baseFch.makeRequest c2Oracle 2 0).result = Except.error Err.abortError ∧
    (baseFch.makeRequest c2Oracle 2 0).attempts = 2 ∧
    (baseFch.makeRequest c2Oracle 2 0).core.aborted = true ∧
    fetchWithTimeout baseFch.core [] (c2Oracle 1 baseFch.core)
      = (Except.ok ⟨200, "ok"⟩, baseFch.core) :=
  ⟨rfl, rfl, rfl, rfl⟩

/-- C7: a concrete run refuting that the FormData accumulated by
`appendToFormData` is the request body used by `makeRequest`.  On a fresh
instance, `appendToFormData("key", "value")` allocates the FormData, stores
the pair and forces the method to `POST`, but assigns the new object only
to `this.formData`; `this.fetchOptions.body` keeps its constructor value
`null`, so the body a fetch would transmit resolves to nothing.
`setFormData`, by contrast, does wire the object into
`fetchOptions.body`. -/
theorem appendToFormData_body_not_wired :
    (FchCore.appendToFormData [] baseFch.core "key" "value").1 = [[("key", "value")]] ∧
    (FchCore.appendToFormData [] baseFch.core "key" "value").2.formData = some 0 ∧
    (FchCore.appendToFormData [] baseFch.core "key" "value").2.fetchOptionsMethod = "POST" ∧
    (FchCore.appendToFormData [] baseFch.core "key" "value").2.fetchOptionsBody = BodyVal.null ∧
    resolveBody (FchCore.appendToFormData [] baseFch.core "key" "value").1
      (FchCore.appendToFormData [] baseFch.core "key" "value").2.fetchOptionsBody
      = SentBody.none ∧
    (FchCore.setFormData baseFch.core 0).fetchOptionsBody = BodyVal.fdRef 0 ∧
    resolveBody [[("key", "value")]] (FchCore.setFormData baseFch.core 0).fetchOptionsBody
      = SentBody.form [("key", "value")] :=
  ⟨rfl, rfl, rfl, rfl, rfl, rfl, rfl⟩

/-- An instance constructed with `retries: -1` (equally reachable through
`setRetries(-1)`). -/
def negRetriesFch : Fch := Fch.construct "https://api.example.com/" {retries := some (-1)}

/-- An oracle under which every attempt's fetch would succeed. -/
def alwaysOkOracle : Nat → FchCore → FetchOutcome :=
  fun _ _ => FetchOutcome.success ⟨200, "ok"⟩

/-- C8 counterexample: on an instance whose `retries` field is `-1`,
`makeRequest()` with no arguments performs no attempt at all and resolves
with `undefined`, refuting "makeRequest() with no arguments always performs
at least one attempt": the `this.retries || 1` fallback only rescues the
falsy `0`, while the truthy `-1` is passed through and makes the loop guard
fail immediately. -/
theorem makeRequestDefault_neg_retries_no_attempt :
    negRetriesFch.core.retries = -1 ∧
    (negRetriesFch.makeRequestDefault alwaysOkOracle).attempts = 0 ∧
    (negRetriesFch.makeRequestDefault alwaysOkOracle).result = Except.ok none :=
  ⟨rfl, rfl, rfl⟩

/-- C8 (amended): with an explicit `retries <= 0` argument the attempt loop
never runs — no fetch is performed and the promise resolves with
`undefined` rather than a `Response` and rather than rejecting; and
`makeRequest()` with no arguments performs at least one attempt whenever
`this.retries` is non-negative, because `this.retries || 1` turns the falsy
`0` into `1`; but when `this.retries` is negative it is passed through
unchanged and no attempt is performed. -/
theorem makeRequest_nonpositive_retries (f : Fch) (oracle : Nat → FchCore → FetchOutcome) :
    (∀ (retries rt : Int), retries ≤ 0 →
      (f.makeRequest oracle retries rt).result = Except.ok none ∧
      (f.makeRequest oracle retries rt).attempts = 0) ∧
    (0 ≤ f.core.retries → 1 ≤ (f.makeRequestDefault oracle).attempts) ∧
    (f.core.retries < 0 →
      (f.makeRequestDefault oracle).attempts = 0 ∧
      (f.makeRequestDefault oracle).result = Except.ok none) := by
  have hzero : ∀ (retries rt : Int), retries ≤ 0 →
      (f.makeRequest oracle retries rt).result = Except.ok none ∧
      (f.makeRequest oracle retries rt).attempts = 0 := by
    intro retries rt hr
    have ht : retries.toNat = 0 := by omega
    constructor
    · simp [Fch.makeRequest, makeRequestLoop, ht, loopGo]
    · simp [Fch.makeRequest, makeRequestLoop, ht, loopGo]
  refine ⟨hzero, ?_, ?_⟩
  · intro hnn
    have hpos : 1 ≤ (if f.core.retries = 0 then 1 else f.core.retries) := by
      by_cases h0 : f.core.retries = 0
      · simp [h0]
      · simp [h0]; omega
    have hfuel : 1 ≤ (if f.core.retries = 0 then 1 else f.core.retries).toNat := by omega
    have hge := loopGo_attempts_ge_one f.responseInterceptors oracle
      (if f.core.retries = 0 then 1 else f.core.retries)
      (if f.core.retries = 0 then 1 else f.core.retries).toNat
      (applyReqInterceptors f.core f.requestInterceptors) 0 hfuel
    simpa [Fch.makeRequestDefault, Fch.makeRequest, makeRequestLoop] using hge
  · intro hneg
    have hne : ¬ (f.core.retries = 0) := by omega
    have h := hzero f.core.retries f.core.retryTimeout (by omega)
    constructor
    · have := h.2
      simpa [Fch.makeRequestDefault, hne] using this
    · have := h.1
      simpa [Fch.makeRequestDefault, hne] using this

/-- C8 witness: `makeRequest(-2)` on a default instance performs no fetch
and resolves with `undefined`. -/
theorem makeRequest_nonpositive_retries_witness :
    ((-2 : Int) ≤ 0 ∧ (0 : Int) ≤ baseFch.core.retries) ∧
    ((baseFch.makeRequest alwaysOkOracle (-2) 0).result = Except.ok none ∧
      (baseFch.makeRequest alwaysOkOracle (-2) 0).attempts = 0) ∧
    1 ≤ (baseFch.makeRequestDefault alwaysOkOracle).attempts :=
  ⟨⟨by omega, by decide⟩,
    (makeRequest_nonpositive_retries baseFch alwaysOkOracle).1 (-2) 0 (by omega),
    (makeRequest_nonpositive_retries baseFch alwaysOkOracle).2.1 (by decide)⟩

/-- C3: the interceptor pipeline.  `addRequestInterceptor` and
`addResponseInterceptor` append to their arrays and return the same
instance; an interceptor registered last runs after (and, for responses,
on the result of) all earlier ones; and a `makeRequest` whose first attempt
succeeds fetches against the state produced by running every request
interceptor on the instance, returning the fetch response piped through
every response interceptor (the last one's result). -/
theorem interceptor_pipeline :
    (∀ (f : Fch) (g : FchCore → FchCore),
      f.addRequestInterceptor g = { f with requestInterceptors := f.requestInterceptors ++ [g] }) ∧
    (∀ (f : Fch) (g : Resp → Resp),
      f.addResponseInterceptor g = { f with responseInterceptors := f.responseInterceptors ++ [g] }) ∧
    (∀ (c : FchCore) (ints : List (FchCore → FchCore)) (g : FchCore → FchCore),
      applyReqInterceptors c (ints ++ [g]) = g (applyReqInterceptors c ints)) ∧
    (∀ (r : Resp) (ints : List (Resp → Resp)) (g : Resp → Resp),
      applyRespInterceptors r (ints ++ [g]) = g (applyRespInterceptors r ints)) ∧
    (∀ (f : Fch) (oracle : Nat → FchCore → FetchOutcome) (retries rt : Int) (r : Resp),
      1 ≤ retries →
      (applyReqInterceptors f.core f.requestInterceptors).aborted = false →
      oracle 0 (applyReqInterceptors f.core f.requestInterceptors) = FetchOutcome.success r →
      (f.makeRequest oracle retries rt).result
          = Except.ok (some (applyRespInterceptors r f.responseInterceptors)) ∧
      (f.makeRequest oracle retries rt).attempts = 1) := by
  refine ⟨fun f g => rfl, fun f g => rfl, ?_, ?_, ?_⟩
  · intro c ints g
    simp [applyReqInterceptors, List.foldl_append]
  · intro r ints g
    simp [applyRespInterceptors, List.foldl_append]
  · intro f oracle retries rt r h1 hab hor
    obtain ⟨k, hk⟩ : ∃ k, retries.toNat = k + 1 := ⟨retries.toNat - 1, by omega⟩
    constructor
    · simp [Fch.makeRequest, makeRequestLoop, hk, loopGo, fetchWithTimeout, hab, hor]
    · simp [Fch.makeRequest, makeRequestLoop, hk, loopGo, fetchWithTimeout, hab, hor]

/-- The request interceptor of the C3 witness run: it mutates a field of
the instance. -/
def c3ReqInt : FchCore → FchCore := fun c => { c with retryTimeout := 7 }

/-- The response interceptor of the C3 witness run: it bumps the status. -/
def c3RespInt : Resp → Resp := fun r => { r with status := r.status + 1 }

/-- The instance of the C3 witness run, with one interceptor of each kind
registered through the public API. -/
def c3Fch : Fch := (baseFch.addRequestInterceptor c3ReqInt).addResponseInterceptor c3RespInt

/-- The oracle of the C3 witness run: every attempt succeeds with 200. -/
def c3Oracle : Nat → FchCore → FetchOutcome := fun _ _ => FetchOutcome.success ⟨200, "ok"⟩

/-- C3 witness: on a concrete instance with one request and one response
interceptor, a first-attempt success returns the interceptor-transformed
response after one attempt. -/
theorem interceptor_pipeline_witness :
    ((1 : Int) ≤ 2 ∧
      (applyReqInterceptors c3Fch.core c3Fch.requestInterceptors).aborted = false ∧
      c3Oracle 0 (applyReqInterceptors c3Fch.core c3Fch.requestInterceptors)
        = FetchOutcome.success ⟨200, "ok"⟩) ∧
    ((c3Fch.makeRequest c3Oracle 2 0).result
        = Except.ok (some (applyRespInterceptors ⟨200, "ok"⟩ c3Fch.responseInterceptors)) ∧
      (c3Fch.makeRequest c3Oracle 2 0).attempts = 1) :=
  ⟨⟨by omega, rfl, rfl⟩,
    interceptor_pipeline.2.2.2.2 c3Fch c3Oracle 2 0 ⟨200, "ok"⟩ (by omega) rfl rfl⟩

/-- C4: logging is pluggable.  A logger given to the constructor whose
`info`, `warn` and `error` members are all functions becomes `this.logger`;
with no logger, or with any of the three members missing, the constructor
falls back to the console-based default logger; and `setLogger` installs
the given logger. -/
theorem pluggable_logger :
    (∀ (url : String) (o : FetchRequestOptions) (l : RawLogger)
        (fi fw fe : String → List LogEvent),
      o.logger = some l → l.info = some fi → l.warn = some fw → l.error = some fe →
      (Fch.construct url o).core.logger = ⟨fi, fw, fe⟩) ∧
    (∀ (url : String) (o : FetchRequestOptions), o.logger = none →
      (Fch.construct url o).core.logger = createDefaultLogger) ∧
    (∀ (url : String) (o : FetchRequestOptions) (l : RawLogger), o.logger = some l →
      (l.info = none ∨ l.warn = none ∨ l.error = none) →
      (Fch.construct url o).core.logger = createDefaultLogger) ∧
    (∀ (f : Fch) (lg : Logger), (f.setLogger lg).core.logger = lg) := by
  refine ⟨?_, ?_, ?_, fun f lg => rfl⟩
  · intro url o l fi fw fe h hi hw he
    show adaptLogger o.logger = _
    rw [h]
    simp [adaptLogger, hi, hw, he]
  · intro url o h
    show adaptLogger o.logger = _
    rw [h]
    rfl
  · intro url o l h hdis
    show adaptLogger o.logger = _
    rw [h]
    cases hi : l.info <;> cases hw : l.warn <;> cases he : l.error <;>
      simp_all [adaptLogger]

/-- The `info` member of the C4 witness logger. -/
def c4Info : String → List LogEvent := fun m => [LogEvent.ext "info" m]

/-- The `warn` member of the C4 witness logger. -/
def c4Warn : String → List LogEvent := fun m => [LogEvent.ext "warn" m]

/-- The `error` member of the C4 witness logger. -/
def c4Fail : String → List LogEvent := fun m => [LogEvent.ext "error" m]

/-- The C4 witness logger candidate: all three members are functions. -/
def c4Raw : RawLogger := ⟨some c4Info, some c4Warn, some c4Fail⟩

/-- The C4 witness constructor options. -/
def c4Opts : FetchRequestOptions := { logger := some c4Raw }

/-- C4 witness: a concrete well-formed logger given to the constructor
becomes the instance's logger. -/
theorem pluggable_logger_witness :
    (c4Opts.logger = some c4Raw ∧ c4Raw.info = some c4Info ∧
      c4Raw.warn = some c4Warn ∧ c4Raw.error = some c4Fail) ∧
    (Fch.construct "https://api.example.com/" c4Opts).core.logger = ⟨c4Info, c4Warn, c4Fail⟩ :=
  ⟨⟨rfl, rfl, rfl, rfl⟩,
    pluggable_logger.1 "https://api.example.com/" c4Opts c4Raw c4Info c4Warn c4Fail
      rfl rfl rfl rfl⟩

/-- C5: `setJsonBody(v)` updates the instance in place, setting the body to
`JSON.stringify(v)`, clearing `formData`, and setting the `Content-Type`
header to `application/json`; every other part of the instance (url,
method, counters, logger, interceptors) is untouched, which the record
update makes explicit. -/
theorem setJsonBody_contract (f : Fch) (v : JsValue) :
    f.setJsonBody v =
      { f with core := { f.core with
          formData := none
          fetchOptionsBody := BodyVal.str (jsonStringify v)
          headersMap := headersSet f.core.headersMap "Content-Type" "application/json" } } ∧
    (f.setJsonBody v).core.getHeader "Content-Type" = some "application/json" := by
  constructor
  · rfl
  · show headersGet (headersSet f.core.headersMap "Content-Type" "application/json")
        "Content-Type" = some "application/json"
    exact headersGet_headersSet_self f.core.headersMap "Content-Type" "application/json"

/-- C6: `setFormUrlEncodedBody` sets the body to the `URLSearchParams`
serialization of the record flattened per the specification — each array
element appended as a separate value under its key, non-string values
converted with `String` — and sets the `Content-Type` header to
`application/x-www-form-urlencoded`. -/
theorem setFormUrlEncodedBody_contract (f : Fch) (data : List (String × FormValue)) :
    (f.setFormUrlEncodedBody data).core.fetchOptionsBody
        = BodyVal.str (URLSearchParams.toStr ⟨specFlattenedPairs data⟩) ∧
    (f.setFormUrlEncodedBody data).core.getHeader "Content-Type"
        = some "application/x-www-form-urlencoded" := by
  have h : buildParams data = ⟨specFlattenedPairs data⟩ :=
    congrArg URLSearchParams.mk (buildParams_pairs data)
  constructor
  · show BodyVal.str (URLSearchParams.toStr (buildParams data))
        = BodyVal.str (URLSearchParams.toStr ⟨specFlattenedPairs data⟩)
    rw [h]
  · show headersGet
        (headersSet f.core.headersMap "Content-Type" "application/x-www-form-urlencoded")
        "Content-Type" = some "application/x-www-form-urlencoded"
    exact headersGet_headersSet_self f.core.headersMap "Content-Type"
      "application/x-www-form-urlencoded"

/-- C9: each of `setBody`, `setJsonBody` and `setFormUrlEncodedBody` leaves
`formData` cleared to `null`, so these body setters never leave both a raw
body and a `FormData` configured. -/
theorem body_setters_clear_formData (f : Fch) (body : BodyVal) (ct : Option String)
    (v : JsValue) (data : List (String × FormValue)) :
    (f.setBody body ct).core.formData = none ∧
    (f.setJsonBody v).core.formData = none ∧
    (f.setFormUrlEncodedBody data).core.formData = none := by
  refine ⟨?_, rfl, rfl⟩
  cases ct with
  | none => rfl
  | some s =>
    show (FchCore.setBody f.core body (some s)).formData = none
    unfold FchCore.setBody
    simp only
    split <;> rfl

/-- C10: the wrapper returned by `getLogger` forwards nothing to the
underlying logger while logging is disabled and forwards each call
unchanged while enabled; logging is disabled by default (the constructor
copies `debug`, whose default is `false`), enabled by `debug: true` or
`enableLogging()`, and disabled by `disableLogging()`. -/
theorem getLogger_gates_logging :
    (∀ (c : FchCore) (m : String), c.isLoggingEnabled = false →
      c.getLogger.info m = [] ∧ c.getLogger.warn m = [] ∧ c.getLogger.error m = []) ∧
    (∀ (c : FchCore) (m : String), c.isLoggingEnabled = true →
      c.getLogger.info m = c.logger.info m ∧ c.getLogger.warn m = c.logger.warn m ∧
      c.getLogger.error m = c.logger.error m) ∧
    (∀ (url : String) (o : FetchRequestOptions), o.debug = none →
      (Fch.construct url o).core.isLoggingEnabled = false) ∧
    (∀ (url : String) (o : FetchRequestOptions), o.debug = some true →
      (Fch.construct url o).core.isLoggingEnabled = true) ∧
    (∀ (c : FchCore), c.enableLogging.isLoggingEnabled = true) ∧
    (∀ (c : FchCore), c.disableLogging.isLoggingEnabled = false) := by
  refine ⟨?_, ?_, ?_, ?_, fun c => rfl, fun c => rfl⟩
  · intro c m h
    refine ⟨?_, ?_, ?_⟩ <;> simp [FchCore.getLogger, h]
  · intro c m h
    refine ⟨?_, ?_, ?_⟩ <;> simp [FchCore.getLogger, h]
  · intro url o h
    show o.debug.getD false = false
    rw [h]
    rfl
  · intro url o h
    show o.debug.getD false = true
    rw [h]
    rfl

/-- An underlying logger that visibly emits on every call, used to witness
that the disabled wrapper emits nothing. -/
def sentinelLogger : Logger :=
  ⟨fun m => [LogEvent.ext "info" m], fun m => [LogEvent.ext "warn" m],
    fun m => [LogEvent.ext "error" m]⟩

/-- The state of the C10 witness: default construction (logging disabled)
with a visibly emitting logger installed. -/
def c10Core : FchCore := baseFch.core.setLogger sentinelLogger

/-- C10 witness: with logging disabled, the wrapper returned by `getLogger`
emits nothing even though the underlying logger emits on every call. -/
theorem getLogger_gates_logging_witness :
    c10Core.isLoggingEnabled = false ∧
    (c10Core.getLogger.info "m" = [] ∧ c10Core.getLogger.warn "m" = [] ∧
      c10Core.getLogger.error "m" = []) :=
  ⟨rfl, getLogger_gates_logging.1 c10Core "m" rfl⟩
